import Mathlib

/-!
Verification of the digital-attendance check-in core.

A shallow embedding of the attendance check-in protocol of the
CMS-digi-attendance repository, together with proofs and refutations of the
frozen specification claims.

Embedding conventions:
* Timestamps (`timestamptz` columns, `Date.now()`, ISO strings compared via
  `new Date`) are modelled as `Int` epoch milliseconds.
* Row identifiers (uuids) and tokens are modelled as `String`.
* The relational store is a `DB` record; its single-row insert into
  `attendance_records` is `insertRecord`, which is the sole arbiter of the
  `UNIQUE(session_id, student_id)` constraint (migration, `attendance_records`
  table) and of the two NOT NULL foreign keys of that table.  A Postgres
  insert checks the unique index before firing the foreign-key triggers, so
  `insertRecord` tests uniqueness first.
* Supabase JS query builders resolve with a `\x7b data, error \x7d` value and do
  not throw on a Postgres error; fallible calls are therefore `Except`/`Option`
  values, and code that ignores the result is embedded as ignoring the value.
* JS strings in the QR-code utilities are modelled as `List Nat` of UTF-16
  code units, so that the Latin-1 restriction of `btoa` is expressible.
-/

namespace Attendance

/-- The `check_in_method` enum of the migration. -/
inductive CheckInMethod
  | qr
  | pin
  | offline_qr
deriving DecidableEq

/-- A row of `attendance_sessions` (migration, table definition). -/
structure Session where
  id : String
  course_id : String
  session_name : String
  qr_token : String
  pin_code : String
  started_at : Int
  expires_at : Int
  ended_at : Option Int
  is_active : Bool
  created_by : String
deriving DecidableEq

/-- A row of `attendance_records` (migration, table definition). -/
structure AttendanceRecord where
  session_id : String
  student_id : String
  checked_in_at : Int
  check_in_method : CheckInMethod
  synced_from_offline : Bool
  offline_scanned_at : Option Int
deriving DecidableEq

/-- The authoritative data store: profile ids, sessions and check-in records. -/
structure DB where
  profiles : List String
  sessions : List Session
  records : List AttendanceRecord
deriving DecidableEq

/-- Does a check-in record for this (session, student) pair already exist? -/
def recordExists (db : DB) (sessionId studentId : String) : Bool :=
  db.records.any (fun r => r.session_id = sessionId && r.student_id = studentId)

/-- Errors an `attendance_records` insert can report: Postgres 23505
(unique violation of `UNIQUE(session_id, student_id)`) and 23503
(foreign-key violation on `session_id`/`student_id`). -/
inductive InsertError
  | uniqueViolation
  | fkViolation
deriving DecidableEq

/-- Atomic insert into `attendance_records`.  The unique index on
(session_id, student_id) is checked first, then the two foreign keys;
on success the row is appended. -/
def insertRecord (db : DB) (r : AttendanceRecord) : Except InsertError DB :=
  if recordExists db r.session_id r.student_id then
    .error .uniqueViolation
  else if db.sessions.any (fun s => s.id = r.session_id)
      && db.profiles.any (fun p => p = r.student_id) then
    .ok { db with records := db.records ++ [r] }
  else
    .error .fkViolation

/-- The row payload the two PIN paths insert: method `pin`, the remaining
columns filled by their table defaults. -/
def pinRecord (sid A : String) (now : Int) : AttendanceRecord :=
  { session_id := sid, student_id := A, checked_in_at := now,
    check_in_method := .pin, synced_from_offline := false,
    offline_scanned_at := none }

/-- The row payload the online QR path inserts: method `qr`. -/
def qrRecord (sid A : String) (now : Int) : AttendanceRecord :=
  { session_id := sid, student_id := A, checked_in_at := now,
    check_in_method := .qr, synced_from_offline := false,
    offline_scanned_at := none }

/-- The row payload both offline-replay paths insert: method `offline_qr`,
`synced_from_offline = true` and the original capture time in
`offline_scanned_at`. -/
def offlineRecord (sid A : String) (captured now : Int) : AttendanceRecord :=
  { session_id := sid, student_id := A, checked_in_at := now,
    check_in_method := .offline_qr, synced_from_offline := true,
    offline_scanned_at := some captured }

/-- Session lookup of the PIN paths: `pin_code = ? AND is_active = true`
(`pin_checkin` SQL function and the pin-checkin edge function). -/
def findPinSession (l : List Session) (pin : String) : Option Session :=
  l.find? (fun s => s.pin_code = pin && s.is_active)

/-- Session lookup of the offline-sync paths: by id and QR token only,
with no `is_active` filter (sync-attendance edge function,
`syncPendingCheckIns`). -/
def findQRSession (l : List Session) (sid tok : String) : Option Session :=
  l.find? (fun s => s.id = sid && s.qr_token = tok)

/-- Session lookup of the online QR path: by id, QR token and
`is_active = true` (`handleQRScan`). -/
def findQRSessionActive (l : List Session) (sid tok : String) : Option Session :=
  l.find? (fun s => s.id = sid && s.qr_token = tok && s.is_active)

/-- Outcomes of the `pin_checkin` SQL function: the jsonb error values
`invalid_pin`, `expired`, `duplicate`, the propagated exception of any
other insert failure, and success. -/
inductive PinRpcResult
  | invalid_pin
  | expired
  | duplicate
  | rpcError
  | ok
deriving DecidableEq

/-- The `pin_checkin(p_pin_code)` SQL function (migration).  Selects an
active session by PIN, rejects if `expires_at < now()`, then inserts a
record with method `pin`, catching only `unique_violation`; defaults fill
`checked_in_at = now()`, `synced_from_offline = false`,
`offline_scanned_at = null`.  `authUid` is `auth.uid()`. -/
def pin_checkin (db : DB) (p_pin_code : String) (authUid : String) (now : Int) :
    PinRpcResult × DB :=
  match findPinSession db.sessions p_pin_code with
  | none => (.invalid_pin, db)
  | some s =>
    if s.expires_at < now then
      (.expired, db)
    else
      match insertRecord db (pinRecord s.id authUid now) with
      | .error .uniqueViolation => (.duplicate, db)
      | .error .fkViolation => (.rpcError, db)
      | .ok db2 => (.ok, db2)

/-- HTTP-level outcomes shared by the two edge functions. -/
inductive EdgeResult
  | missingFields
  | notFound
  | expired
  | duplicate
  | serverError
  | ok
deriving DecidableEq

/-- The pin-checkin edge function (supabase/functions/pin-checkin).
Rejects falsy fields, looks up an active session by PIN, rejects if the
expiry has passed, inserts a `pin` record and maps error code 23505 to
409 Already checked in. -/
def pinCheckinEdge (db : DB) (pin_code student_id : String) (now : Int) :
    EdgeResult × DB :=
  if pin_code = "" || student_id = "" then
    (.missingFields, db)
  else
    match findPinSession db.sessions pin_code with
    | none => (.notFound, db)
    | some s =>
      if s.expires_at < now then
        (.expired, db)
      else
        match insertRecord db (pinRecord s.id student_id now) with
        | .error .uniqueViolation => (.duplicate, db)
        | .error .fkViolation => (.serverError, db)
        | .ok db2 => (.ok, db2)

/-- The sync-attendance edge function (supabase/functions/sync-attendance).
Rejects falsy fields, resolves the session by (id, qr_token) with no
`is_active` filter and no expiry check, then inserts an `offline_qr` record
carrying `synced_from_offline = true` and the original capture timestamp;
error 23505 maps to 409, any other insert error is thrown (500). -/
def syncAttendance (db : DB) (session_id student_id : String)
    (scanned_at_offline : Int) (qr_token : String) (now : Int) :
    EdgeResult × DB :=
  if session_id = "" || student_id = "" || qr_token = "" then
    (.missingFields, db)
  else
    match findQRSession db.sessions session_id qr_token with
    | none => (.notFound, db)
    | some _ =>
      match insertRecord db (offlineRecord session_id student_id scanned_at_offline now) with
      | .error .uniqueViolation => (.duplicate, db)
      | .error .fkViolation => (.serverError, db)
      | .ok db2 => (.ok, db2)

/-- A row of the client-local offline queue (utils/offlineSync.ts,
`OfflineCheckIn` plus the auto-increment IndexedDB key). -/
structure OfflineCheckIn where
  id : Nat
  sessionId : String
  qrToken : String
  scannedAt : Int
  expiresAt : Int
deriving DecidableEq

/-- isSessionExpired of utils/qrCode.ts: `new Date(expiresAt) < new Date()`. -/
def isSessionExpired (expiresAt now : Int) : Bool :=
  expiresAt < now

/-- Client-visible outcomes of `handleQRScan` (AttendanceScanner). -/
inductive QRScanOutcome
  | invalidQRCode
  | sessionExpired
  | savedOffline
  | invalidOrExpired
  | alreadyCheckedIn
  | failedToCheckIn
  | checkedIn
deriving DecidableEq

/-- The online branch of `handleQRScan`: session lookup by id, token and
`is_active = true`, then insert of a `qr` record; insert error 23505 is
reported as already-checked-in, anything else as a generic failure. -/
def qrCheckInOnline (db : DB) (studentId sessionId qrToken : String) (now : Int) :
    QRScanOutcome × DB :=
  match findQRSessionActive db.sessions sessionId qrToken with
  | none => (.invalidOrExpired, db)
  | some s =>
    match insertRecord db (qrRecord s.id studentId now) with
    | .error .uniqueViolation => (.alreadyCheckedIn, db)
    | .error .fkViolation => (.failedToCheckIn, db)
    | .ok db2 => (.checkedIn, db2)

/-- handleQRScan (AttendanceScanner) after a successful decode of the QR
payload: client-side expiry check against the payload's expiry, then either
enqueue an offline intent (capturing `scannedAt = now`) or run the online
check-in.  Returns the outcome, the store and the offline queue. -/
def handleQRScan (db : DB) (queue : List OfflineCheckIn) (nextId : Nat)
    (isOnline : Bool) (studentId sessionId qrToken : String)
    (expiresAt now : Int) : QRScanOutcome × DB × List OfflineCheckIn :=
  if isSessionExpired expiresAt now then
    (.sessionExpired, db, queue)
  else if !isOnline then
    (.savedOffline, db,
      queue ++ [{ id := nextId, sessionId := sessionId, qrToken := qrToken,
                  scannedAt := now, expiresAt := expiresAt }])
  else
    let r := qrCheckInOnline db studentId sessionId qrToken now
    (r.1, r.2, queue)

/-- One iteration of the `syncPendingCheckIns` loop (AttendanceScanner):
re-resolve the session by (id, qr_token); if it does not resolve, remove the
intent and continue; otherwise insert the `offline_qr` record — the insert's
result value is never inspected by the source — and remove the intent.
Returns the store and whether `removeCheckIn` ran (the intent was dequeued). -/
def syncOneCheckIn (db : DB) (studentId : String) (c : OfflineCheckIn)
    (now : Int) : DB × Bool :=
  match findQRSession db.sessions c.sessionId c.qrToken with
  | none => (db, true)
  | some _ =>
    match insertRecord db (offlineRecord c.sessionId studentId c.scannedAt now) with
    | .ok db2 => (db2, true)
    | .error _ => (db, true)

/-- The full `syncPendingCheckIns` loop: process each pending intent in order,
keeping an intent only when its iteration did not dequeue it. -/
def syncPendingCheckIns (db : DB) (studentId : String)
    (queue : List OfflineCheckIn) (now : Int) : DB × List OfflineCheckIn :=
  match queue with
  | [] => (db, [])
  | c :: rest =>
    let step := syncOneCheckIn db studentId c now
    let tail := syncPendingCheckIns step.1 studentId rest now
    (tail.1, (if step.2 then [] else [c]) ++ tail.2)

/-- handleEndSession (ActiveSessionView): update the session row to
`is_active = false, ended_at = now`. -/
def handleEndSession (db : DB) (sessionId : String) (now : Int) : DB :=
  { db with
    sessions := db.sessions.map (fun s =>
      if s.id = sessionId then { s with is_active := false, ended_at := some now }
      else s) }

/-- Result of the `attendance_sessions` insert of session creation. -/
inductive CreateSessionResult
  | created
  | insertFailed
deriving DecidableEq

/-- CreateSessionModal.handleSubmit (QRScanner.tsx): no validation of the
session name or duration; computes `expires_at = now + duration * 60000` and
inserts the session row with `is_active = true`.  The only data-store
constraint that can reject it is the unique index on `qr_token`; `newId`
stands for the generated uuid. -/
def handleSubmit (db : DB) (newId courseId sessionName : String)
    (duration : Int) (qrToken pinCode creatorId : String) (now : Int) :
    CreateSessionResult × DB :=
  if db.sessions.any (fun s => s.qr_token = qrToken) then
    (.insertFailed, db)
  else
    (.created,
      { db with
        sessions := db.sessions ++
          [{ id := newId, course_id := courseId, session_name := sessionName,
             qr_token := qrToken, pin_code := pinCode, started_at := now,
             expires_at := now + duration * 60000, ended_at := none,
             is_active := true, created_by := creatorId }] })

/-- Decimal rendering of a natural number as a list of character codes,
as the JS number-to-string conversion produces it. -/
def decimalRepr (n : Nat) : List Nat :=
  if n = 0 then [48] else ((Nat.digits 10 n).map (fun d => d + 48)).reverse

/-- generatePIN (utils/qrCode.ts):
Math.floor(100000 + Math.random() * 900000), with the Math.random() value
modelled as a rational r in [0, 1). -/
def generatePIN (r : ℚ) : Nat :=
  (Int.floor ((100000 : ℚ) + r * 900000)).toNat

/-- The PIN as the string the source returns: generatePIN followed by
the number-to-string conversion. -/
def generatePINString (r : ℚ) : List Nat :=
  decimalRepr (generatePIN r)

/-- Character code of base-36 digit d (0-9 then a-z), the digit alphabet of
the JS toString(36) conversion. -/
def toBase36Char (d : Nat) : Nat :=
  if d < 10 then 48 + d else 87 + d

/-- Randomness model of Math.random(): an IEEE-754 double k / 2^53 with
k < 2^53.  `randomComponent k` is the base-36 fractional expansion of that
double truncated to the 13 digit positions selected by
toString(36).substring(2, 15).  The engine prints the shortest expansion
that round-trips, which is a truncation of this one, so either way each of
the at most 2^53 doubles determines one output string. -/
def randomComponent (k : Nat) : List Nat :=
  (List.range 13).map (fun i => toBase36Char (k * 36 ^ (i + 1) / 2 ^ 53 % 36))

/-- generateQRToken (utils/qrCode.ts): the template literal joining
Date.now() and the random component with a hyphen (code 45). -/
def generateQRToken (nowMs k : Nat) : List Nat :=
  decimalRepr nowMs ++ [45] ++ randomComponent k

section Helpers

/-- Insert succeeds when no duplicate exists and both foreign keys resolve. -/
theorem insertRecord_ok (db : DB) (r : AttendanceRecord)
    (hno : recordExists db r.session_id r.student_id = false)
    (hs : ∃ s ∈ db.sessions, s.id = r.session_id)
    (hp : r.student_id ∈ db.profiles) :
    insertRecord db r = .ok { db with records := db.records ++ [r] } := by
  obtain ⟨s, hsmem, hsid⟩ := hs
  have h1 : db.sessions.any (fun s => s.id = r.session_id) = true :=
    List.any_eq_true.mpr ⟨s, hsmem, by simp [hsid]⟩
  have h2 : db.profiles.any (fun p => p = r.student_id) = true :=
    List.any_eq_true.mpr ⟨r.student_id, hp, by simp⟩
  simp [insertRecord, hno, h1, h2]

/-- Insert reports the unique-constraint violation exactly when a record for
the pair already exists. -/
theorem insertRecord_uniqueViolation_iff (db : DB) (r : AttendanceRecord) :
    insertRecord db r = .error .uniqueViolation ↔
      recordExists db r.session_id r.student_id = true := by
  unfold insertRecord
  cases hre : recordExists db r.session_id r.student_id with
  | false =>
    constructor
    · intro h
      rw [if_neg (by simp)] at h
      split at h <;> simp_all
    · intro h
      simp at h
  | true => simp

/-- A session found by the QR lookup is a member with the looked-up id. -/
theorem findQRSession_mem {l : List Session} {sid tok : String} {S : Session}
    (h : findQRSession l sid tok = some S) : S ∈ l ∧ S.id = sid := by
  have hmem := List.mem_of_find?_eq_some h
  have hpred := List.find?_some h
  simp only [Bool.and_eq_true, decide_eq_true_eq] at hpred
  exact ⟨hmem, hpred.1⟩

/-- A session found by the PIN lookup is an active member with that PIN. -/
theorem findPinSession_mem {l : List Session} {pin : String} {S : Session}
    (h : findPinSession l pin = some S) :
    S ∈ l ∧ S.pin_code = pin ∧ S.is_active = true := by
  have hmem := List.mem_of_find?_eq_some h
  have hpred := List.find?_some h
  simp only [Bool.and_eq_true, decide_eq_true_eq] at hpred
  exact ⟨hmem, hpred.1, hpred.2⟩

/-- A session found by the active QR lookup is a member with that id. -/
theorem findQRSessionActive_mem {l : List Session} {sid tok : String}
    {S : Session} (h : findQRSessionActive l sid tok = some S) :
    S ∈ l ∧ S.id = sid := by
  have hmem := List.mem_of_find?_eq_some h
  have hpred := List.find?_some h
  simp only [Bool.and_eq_true, decide_eq_true_eq] at hpred
  exact ⟨hmem, hpred.1.1⟩

end Helpers

section SampleData

/-- A live session used to instantiate hypotheses of the claim theorems. -/
def sampleSession : Session :=
  { id := "s1", course_id := "c1", session_name := "wk1", qr_token := "tok1",
    pin_code := "123456", started_at := 0, expires_at := 1000,
    ended_at := none, is_active := true, created_by := "lec1" }

/-- A store holding one live session, one student profile and no records. -/
def sampleDB : DB :=
  { profiles := ["alice"], sessions := [sampleSession], records := [] }

end SampleData

section MoreHelpers

/-- A successful insert appends exactly the given row. -/
theorem insertRecord_ok_records {db db3 : DB} {r : AttendanceRecord}
    (h : insertRecord db r = .ok db3) :
    db3 = { db with records := db.records ++ [r] } := by
  unfold insertRecord at h
  split at h
  · cases h
  · split at h
    · cases h
      rfl
    · cases h

/-- After appending a row, a record for its (session, student) pair exists. -/
theorem recordExists_append (db : DB) (r : AttendanceRecord) :
    recordExists { db with records := db.records ++ [r] }
      r.session_id r.student_id = true := by
  simp [recordExists]

end MoreHelpers

/-- C1: for a live session S and a student A with no existing record, a first
admission succeeds on every path — the `pin_checkin` SQL function, the
pin-checkin edge function, the online QR path, the offline-sync replay —
appending exactly one record; once any record for (S, A) exists, every
path's attempt is rejected as Duplicate and leaves the store unchanged; the
Duplicate outcome coincides exactly with `insertRecord` reporting the
violation of the store's UNIQUE(session_id, student_id) constraint (no path
performs a separate check-then-insert); and the first success establishes
the record-exists state that triggers it.  Concurrent submission collapses
to the atomicity of `insertRecord` in this sequential embedding. -/
theorem checkin_at_most_one_record
    (db : DB) (S : Session) (A : String) (captured now : Int)
    (hpin : findPinSession db.sessions S.pin_code = some S)
    (hqra : findQRSessionActive db.sessions S.id S.qr_token = some S)
    (hqr : findQRSession db.sessions S.id S.qr_token = some S)
    (hexp : ¬ S.expires_at < now)
    (hA : A ∈ db.profiles)
    (hpne : S.pin_code ≠ "") (hAne : A ≠ "")
    (hsidne : S.id ≠ "") (htokne : S.qr_token ≠ "")
    (hnorec : recordExists db S.id A = false) :
    (pin_checkin db S.pin_code A now =
      (.ok, { db with records := db.records ++ [pinRecord S.id A now] })) ∧
    (pinCheckinEdge db S.pin_code A now =
      (.ok, { db with records := db.records ++ [pinRecord S.id A now] })) ∧
    (qrCheckInOnline db A S.id S.qr_token now =
      (.checkedIn, { db with records := db.records ++ [qrRecord S.id A now] })) ∧
    (syncAttendance db S.id A captured S.qr_token now =
      (.ok, { db with records := db.records ++ [offlineRecord S.id A captured now] })) ∧
    (∀ db2 : DB,
      recordExists db2 S.id A = true →
      findPinSession db2.sessions S.pin_code = some S →
      findQRSessionActive db2.sessions S.id S.qr_token = some S →
      findQRSession db2.sessions S.id S.qr_token = some S →
      pin_checkin db2 S.pin_code A now = (.duplicate, db2) ∧
      pinCheckinEdge db2 S.pin_code A now = (.duplicate, db2) ∧
      qrCheckInOnline db2 A S.id S.qr_token now = (.alreadyCheckedIn, db2) ∧
      syncAttendance db2 S.id A captured S.qr_token now = (.duplicate, db2)) ∧
    (∀ (db3 : DB) (r : AttendanceRecord),
      insertRecord db3 r = .error .uniqueViolation ↔
        recordExists db3 r.session_id r.student_id = true) ∧
    recordExists { db with records := db.records ++ [pinRecord S.id A now] }
      S.id A = true := by
  have hSmem : S ∈ db.sessions := (findPinSession_mem hpin).1
  have hs : ∃ s ∈ db.sessions, s.id = S.id := ⟨S, hSmem, rfl⟩
  have hinsPin : insertRecord db (pinRecord S.id A now) =
      .ok { db with records := db.records ++ [pinRecord S.id A now] } :=
    insertRecord_ok db _ hnorec hs hA
  have hinsQr : insertRecord db (qrRecord S.id A now) =
      .ok { db with records := db.records ++ [qrRecord S.id A now] } :=
    insertRecord_ok db _ hnorec hs hA
  have hinsOff : insertRecord db (offlineRecord S.id A captured now) =
      .ok { db with records := db.records ++ [offlineRecord S.id A captured now] } :=
    insertRecord_ok db _ hnorec hs hA
  refine ⟨?_, ?_, ?_, ?_, ?_, ?_, ?_⟩
  · simp [pin_checkin, hpin, hexp, hinsPin]
  · simp [pinCheckinEdge, hpin, hexp, hinsPin, hpne, hAne]
  · simp [qrCheckInOnline, hqra, hinsQr]
  · simp [syncAttendance, hqr, hinsOff, hsidne, hAne, htokne]
  · intro db2 hrec h2pin h2qra h2qr
    have hdupPin : insertRecord db2 (pinRecord S.id A now) = .error .uniqueViolation :=
      (insertRecord_uniqueViolation_iff db2 _).mpr hrec
    have hdupQr : insertRecord db2 (qrRecord S.id A now) = .error .uniqueViolation :=
      (insertRecord_uniqueViolation_iff db2 _).mpr hrec
    have hdupOff : insertRecord db2 (offlineRecord S.id A captured now) =
        .error .uniqueViolation :=
      (insertRecord_uniqueViolation_iff db2 _).mpr hrec
    refine ⟨?_, ?_, ?_, ?_⟩
    · simp [pin_checkin, h2pin, hexp, hdupPin]
    · simp [pinCheckinEdge, h2pin, hexp, hdupPin, hpne, hAne]
    · simp [qrCheckInOnline, h2qra, hdupQr]
    · simp [syncAttendance, h2qr, hdupOff, hsidne, hAne, htokne]
  · exact fun db3 r => insertRecord_uniqueViolation_iff db3 r
  · exact recordExists_append db (pinRecord S.id A now)

/-- C1 witness: the theorem instantiated at the sample store. -/
theorem checkin_at_most_one_record_witness :
    pin_checkin sampleDB sampleSession.pin_code "alice" 400 =
      (.ok, { sampleDB with
        records := sampleDB.records ++ [pinRecord sampleSession.id "alice" 400] }) :=
  (checkin_at_most_one_record sampleDB sampleSession "alice" 50 400
    (by decide) (by decide) (by decide) (by decide) (by decide)
    (by decide) (by decide) (by decide) (by decide) (by decide)).1

/-- C2 counterexample: an offline-sync replay attempt at time 2000, well past
the session's expiry 1000 and with the active flag still true, is accepted
(`ok`, a record inserted) instead of failing with Expired — the sync path
performs no expiry check at all. -/
theorem sync_replay_ignores_expiry_counterexample :
    sampleSession.expires_at < 2000 ∧
    sampleSession.is_active = true ∧
    syncAttendance sampleDB "s1" "alice" 100 "tok1" 2000 =
      (.ok, { sampleDB with records := [offlineRecord "s1" "alice" 100 2000] }) := by
  decide

/-- C2 amended: an attempt strictly after the session's expiry fails with
Expired on both PIN admission paths even while the active flag is true, and
the online QR path rejects it client-side; but the offline-sync replay path
performs no expiry check and accepts the late attempt whenever the session
resolves and no duplicate exists. -/
theorem expiry_rejection_per_path
    (db : DB) (S : Session) (A : String) (now : Int)
    (hpin : findPinSession db.sessions S.pin_code = some S)
    (hpne : S.pin_code ≠ "") (hAne : A ≠ "")
    (hlate : S.expires_at < now) :
    pin_checkin db S.pin_code A now = (.expired, db) ∧
    pinCheckinEdge db S.pin_code A now = (.expired, db) ∧
    (∀ (queue : List OfflineCheckIn) (nextId : Nat) (studentId : String),
      handleQRScan db queue nextId true studentId S.id S.qr_token
        S.expires_at now = (.sessionExpired, db, queue)) ∧
    (∀ captured : Int,
      findQRSession db.sessions S.id S.qr_token = some S →
      recordExists db S.id A = false →
      A ∈ db.profiles → S.id ≠ "" → S.qr_token ≠ "" →
      syncAttendance db S.id A captured S.qr_token now =
        (.ok, { db with
          records := db.records ++ [offlineRecord S.id A captured now] })) := by
  refine ⟨?_, ?_, ?_, ?_⟩
  · simp [pin_checkin, hpin, hlate]
  · simp [pinCheckinEdge, hpin, hlate, hpne, hAne]
  · intro queue nextId studentId
    simp [handleQRScan, isSessionExpired, hlate]
  · intro captured hqr hnorec hA hsidne htokne
    have hs : ∃ s ∈ db.sessions, s.id = S.id :=
      ⟨S, (findQRSession_mem hqr).1, (findQRSession_mem hqr).2⟩
    have hins := insertRecord_ok db (offlineRecord S.id A captured now) hnorec hs hA
    simp [syncAttendance, hqr, hins, hsidne, hAne, htokne]

/-- C2 witness: the PIN RPC rejects a late attempt against the sample
session as expired. -/
theorem expiry_rejection_per_path_witness :
    pin_checkin sampleDB sampleSession.pin_code "alice" 2000 =
      (.expired, sampleDB) :=
  (expiry_rejection_per_path sampleDB sampleSession "alice" 2000
    (by decide) (by decide) (by decide) (by decide)).1

/-- A store whose session exists but whose profile list is empty, so the
replayed insert fails with a foreign-key error, not a duplicate. -/
def noProfileDB : DB :=
  { profiles := [], sessions := [sampleSession], records := [] }

/-- A pending offline intent for the sample session. -/
def sampleIntent : OfflineCheckIn :=
  { id := 7, sessionId := "s1", qrToken := "tok1", scannedAt := 100,
    expiresAt := 99999 }

/-- C3 counterexample: the replayed insert fails with a foreign-key
violation — an insert error other than Duplicate — yet `syncOneCheckIn`
still dequeues the intent (the removal flag is true and no record is
stored), because the source never inspects the insert's result. -/
theorem sync_dequeue_on_nonduplicate_error_counterexample :
    insertRecord noProfileDB (offlineRecord "s1" "alice" 100 200) =
      .error .fkViolation ∧
    InsertError.fkViolation ≠ InsertError.uniqueViolation ∧
    syncOneCheckIn noProfileDB "alice" sampleIntent 200 = (noProfileDB, true) :=
  ⟨rfl, by decide, by decide⟩

/-- The reconciler iteration always runs `removeCheckIn`. -/
theorem syncOneCheckIn_dequeues (db : DB) (A : String) (c : OfflineCheckIn)
    (now : Int) : (syncOneCheckIn db A c now).2 = true := by
  unfold syncOneCheckIn
  split
  · rfl
  · split <;> rfl

/-- C3 amended: for every pending intent processed with connectivity, the
intent is dequeued whatever happens once the replay runs to completion:
discarded when the session no longer resolves by (sessionId, qrToken),
dequeued when the insert reports Duplicate, and equally dequeued (store
unchanged) on any other insert error, since `syncPendingCheckIns` never
inspects the insert result; a full pass therefore always empties the
queue. -/
theorem reconciler_always_dequeues (db : DB) (A : String) (c : OfflineCheckIn)
    (now : Int) :
    (syncOneCheckIn db A c now).2 = true ∧
    (findQRSession db.sessions c.sessionId c.qrToken = none →
      syncOneCheckIn db A c now = (db, true)) ∧
    (∀ e : InsertError,
      insertRecord db (offlineRecord c.sessionId A c.scannedAt now) = .error e →
      syncOneCheckIn db A c now = (db, true)) ∧
    (∀ queue : List OfflineCheckIn,
      (syncPendingCheckIns db A queue now).2 = []) := by
  refine ⟨syncOneCheckIn_dequeues db A c now, ?_, ?_, ?_⟩
  · intro hnone
    simp [syncOneCheckIn, hnone]
  · intro e he
    unfold syncOneCheckIn
    split
    · rfl
    · rw [he]
  · intro queue
    induction queue generalizing db with
    | nil => rfl
    | cons c0 rest ih =>
      unfold syncPendingCheckIns
      simp [syncOneCheckIn_dequeues, ih]

/-- C3 witness: a vanished session's intent is discarded without error. -/
theorem reconciler_always_dequeues_witness :
    syncOneCheckIn sampleDB "alice"
      { id := 9, sessionId := "gone", qrToken := "tokZ", scannedAt := 5,
        expiresAt := 50 } 60 = (sampleDB, true) :=
  (reconciler_always_dequeues sampleDB "alice"
    { id := 9, sessionId := "gone", qrToken := "tokZ", scannedAt := 5,
      expiresAt := 50 } 60).2.1 (by decide)

/-- C4: once handleEndSession has flipped the session inactive, no session
with its PIN passes the active-only PIN lookup, so both PIN admission paths
fail with the invalid/expired outcome and leave the records untouched, for
every student and every later attempt time — including times before the
session's time-based expiry.  The hypothesis says S is the only active
session carrying its PIN, the spec's PIN-uniqueness convention. -/
theorem endSession_blocks_pin
    (db : DB) (S : Session) (now : Int) (A : String) (now2 : Int)
    (honly : ∀ s ∈ db.sessions,
      s.pin_code = S.pin_code → s.is_active = true → s.id = S.id)
    (hpne : S.pin_code ≠ "") (hAne : A ≠ "") :
    findPinSession (handleEndSession db S.id now).sessions S.pin_code = none ∧
    pin_checkin (handleEndSession db S.id now) S.pin_code A now2 =
      (.invalid_pin, handleEndSession db S.id now) ∧
    pinCheckinEdge (handleEndSession db S.id now) S.pin_code A now2 =
      (.notFound, handleEndSession db S.id now) ∧
    (handleEndSession db S.id now).records = db.records := by
  have hnone : findPinSession (handleEndSession db S.id now).sessions
      S.pin_code = none := by
    apply List.find?_eq_none.mpr
    intro x hx
    simp only [handleEndSession, List.mem_map] at hx
    obtain ⟨s, hsmem, rfl⟩ := hx
    by_cases hid : s.id = S.id
    · simp [hid]
    · simp only [hid, if_false, Bool.and_eq_true, decide_eq_true_eq, not_and]
      intro hpin' hact
      exact hid (honly s hsmem hpin' hact)
  refine ⟨hnone, ?_, ?_, rfl⟩
  · simp [pin_checkin, hnone]
  · simp [pinCheckinEdge, hnone, hpne, hAne]

/-- C4 witness: ending the sample session at time 500 blocks a PIN check-in
attempted at time 600, before the expiry 1000. -/
theorem endSession_blocks_pin_witness :
    pin_checkin (handleEndSession sampleDB "s1" 500) sampleSession.pin_code
      "alice" 600 = (.invalid_pin, handleEndSession sampleDB "s1" 500) :=
  (endSession_blocks_pin sampleDB sampleSession 500 "alice" 600
    (by decide) (by decide) (by decide)).2.1

/-- C8: every record created by replaying an offline intent — through the
sync-attendance edge function or through the client-side
`syncPendingCheckIns` replay — carries method `offline_qr`, has
`synced_from_offline = true`, and stores the intent's original capture
timestamp in `offline_scanned_at`, while `checked_in_at` is the replay-time
acceptance time. -/
theorem offline_replay_preserves_capture
    (db : DB) (sid A tok : String) (captured now : Int) (db2 : DB)
    (h : syncAttendance db sid A captured tok now = (.ok, db2)) :
    db2.records = db.records ++ [offlineRecord sid A captured now] ∧
    (offlineRecord sid A captured now).check_in_method = .offline_qr ∧
    (offlineRecord sid A captured now).synced_from_offline = true ∧
    (offlineRecord sid A captured now).offline_scanned_at = some captured ∧
    (offlineRecord sid A captured now).checked_in_at = now ∧
    (∀ (dbc : DB) (studentId : String) (c : OfflineCheckIn) (rnow : Int),
      (syncOneCheckIn dbc studentId c rnow).1.records ≠ dbc.records →
      (syncOneCheckIn dbc studentId c rnow).1.records =
        dbc.records ++ [offlineRecord c.sessionId studentId c.scannedAt rnow]) := by
  refine ⟨?_, rfl, rfl, rfl, rfl, ?_⟩
  · unfold syncAttendance at h
    split at h
    · cases h
    · split at h
      · cases h
      · rename_i heq
        split at h
        · cases h
        · cases h
        · rename_i db3 hok
          cases h
          rw [insertRecord_ok_records hok]
  · intro dbc studentId c rnow hne
    unfold syncOneCheckIn at hne ⊢
    split at hne
    · exact absurd rfl hne
    · rename_i hf
      split at hne
      · rename_i db3 hok
        rw [insertRecord_ok_records hok]
      · exact absurd rfl hne

/-- C8 witness: replaying the sample intent at time 400 with capture time 50
appends exactly the offline record carrying the capture time. -/
theorem offline_replay_preserves_capture_witness :
    ({ profiles := ["alice"], sessions := [sampleSession],
       records := [offlineRecord "s1" "alice" 50 400] } : DB).records =
      sampleDB.records ++ [offlineRecord "s1" "alice" 50 400] :=
  (offline_replay_preserves_capture sampleDB "s1" "alice" "tok1" 50 400
    { profiles := ["alice"], sessions := [sampleSession],
      records := [offlineRecord "s1" "alice" 50 400] } (by decide)).1

/-- A store with no rows at all. -/
def emptyDB : DB :=
  { profiles := [], sessions := [], records := [] }

/-- C9 counterexample: session creation with an empty name and a negative
duration does not fail with any validation error — the session row is
inserted (with an already-past expiry), because handleSubmit performs no
validation of name or duration. -/
theorem createSession_unvalidated_counterexample :
    handleSubmit emptyDB "new1" "c1" "" (-5) "tokX" "654321" "lec1" 1000 =
      (.created, { emptyDB with sessions :=
        [{ id := "new1", course_id := "c1", session_name := "",
           qr_token := "tokX", pin_code := "654321", started_at := 1000,
           expires_at := -299000, ended_at := none, is_active := true,
           created_by := "lec1" }] }) := by
  decide

/-- C9 amended: handleSubmit validates neither the session name nor the
duration; for every name (including the empty string) and every duration
(including non-positive ones) it inserts the session row with
expires_at = now + duration * 60000 and is_active = true, provided only
that the generated QR token does not collide with an existing one — the
required attribute of the name field and the fixed positive dropdown are
the only guards, both client-side UI concerns. -/
theorem handleSubmit_no_validation
    (db : DB) (newId courseId name : String) (duration : Int)
    (tok pin creator : String) (now : Int)
    (hfresh : db.sessions.any (fun s => s.qr_token = tok) = false) :
    handleSubmit db newId courseId name duration tok pin creator now =
      (.created, { db with sessions := db.sessions ++
        [{ id := newId, course_id := courseId, session_name := name,
           qr_token := tok, pin_code := pin, started_at := now,
           expires_at := now + duration * 60000, ended_at := none,
           is_active := true, created_by := creator }] }) := by
  simp [handleSubmit, hfresh]

/-- C9 witness: a zero-duration, empty-name session is still created. -/
theorem handleSubmit_no_validation_witness :
    handleSubmit emptyDB "new2" "c1" "" 0 "tokY" "111111" "lec1" 2000 =
      (.created, { emptyDB with sessions :=
        [{ id := "new2", course_id := "c1", session_name := "",
           qr_token := "tokY", pin_code := "111111", started_at := 2000,
           expires_at := 2000 + 0 * 60000, ended_at := none,
           is_active := true, created_by := "lec1" }] }) :=
  handleSubmit_no_validation emptyDB "new2" "c1" "" 0 "tokY" "111111" "lec1"
    2000 (by decide)

/-- C6 counterexample: no Math.random() value in [0, 1) makes generatePIN
produce 12345 — the string 012345 — so PINs with leading zeros are
impossible and the output is not uniform over 000000-999999. -/
theorem generatePIN_no_leading_zeros_counterexample :
    ¬ ∃ r : ℚ, 0 ≤ r ∧ r < 1 ∧ generatePIN r = 12345 := by
  rintro ⟨r, hr0, _hr1, hpin⟩
  have hx : (100000 : ℚ) ≤ 100000 + r * 900000 := by nlinarith
  have hfl : (100000 : ℤ) ≤ Int.floor ((100000 : ℚ) + r * 900000) := by
    apply Int.le_floor.mpr
    exact_mod_cast hx
  unfold generatePIN at hpin
  omega

/-- C6 amended: generatePIN always yields a value in 100000-999999 — a
6-digit numeric string whose first digit is never 0 — its distribution is
uniform over that range (the preimage of each value k is the half-open
rational interval of width 1/900000 starting at (k-100000)/900000), and
every value of that range is attained. -/
theorem generatePIN_six_digit_uniform (r : ℚ) (hr0 : 0 ≤ r) (hr1 : r < 1) :
    (100000 ≤ generatePIN r ∧ generatePIN r ≤ 999999) ∧
    (Nat.digits 10 (generatePIN r)).length = 6 ∧
    generatePINString r = decimalRepr (generatePIN r) ∧
    (∀ k : ℕ, 100000 ≤ k → k ≤ 999999 →
      (generatePIN r = k ↔
        ((k : ℚ) - 100000) / 900000 ≤ r ∧ r < ((k : ℚ) - 99999) / 900000)) ∧
    (∀ k : ℕ, 100000 ≤ k → k ≤ 999999 →
      generatePIN (((k : ℚ) - 100000) / 900000) = k) := by
  have hxl : (100000 : ℚ) ≤ 100000 + r * 900000 := by nlinarith
  have hxu : (100000 : ℚ) + r * 900000 < 1000000 := by nlinarith
  have hfl : (100000 : ℤ) ≤ Int.floor ((100000 : ℚ) + r * 900000) := by
    apply Int.le_floor.mpr
    exact_mod_cast hxl
  have hfu : Int.floor ((100000 : ℚ) + r * 900000) < 1000000 := by
    apply Int.floor_lt.mpr
    exact_mod_cast hxu
  have hrange : 100000 ≤ generatePIN r ∧ generatePIN r ≤ 999999 := by
    unfold generatePIN
    omega
  refine ⟨hrange, ?_, rfl, ?_, ?_⟩
  · have hlog : Nat.log 10 (generatePIN r) = 5 := by
      apply Nat.log_eq_of_pow_le_of_lt_pow
      · norm_num
        exact hrange.1
      · norm_num
        omega
    rw [Nat.digits_len 10 (generatePIN r) (by norm_num) (by omega)]
    omega
  · intro k hk1 hk2
    constructor
    · intro h
      unfold generatePIN at h
      have hk : Int.floor ((100000 : ℚ) + r * 900000) = (k : ℤ) := by omega
      have hiff := Int.floor_eq_iff.mp hk
      push_cast at hiff
      constructor
      · rw [div_le_iff₀ (by norm_num : (0:ℚ) < 900000)]
        linarith [hiff.1]
      · rw [lt_div_iff₀ (by norm_num : (0:ℚ) < 900000)]
        linarith [hiff.2]
    · intro ⟨h1, h2⟩
      rw [div_le_iff₀ (by norm_num : (0:ℚ) < 900000)] at h1
      rw [lt_div_iff₀ (by norm_num : (0:ℚ) < 900000)] at h2
      have hk : Int.floor ((100000 : ℚ) + r * 900000) = (k : ℤ) := by
        apply Int.floor_eq_iff.mpr
        constructor
        · push_cast
          linarith
        · push_cast
          linarith
      unfold generatePIN
      omega
  · intro k hk1 _hk2
    unfold generatePIN
    have hx : (100000 : ℚ) + ((k : ℚ) - 100000) / 900000 * 900000 = (k : ℚ) := by
      field_simp
    rw [hx, Int.floor_natCast]
    omega

/-- C6 witness: the theorem instantiated at Math.random() = 1/2. -/
theorem generatePIN_six_digit_uniform_witness :
    100000 ≤ generatePIN (1/2) ∧ generatePIN (1/2) ≤ 999999 :=
  (generatePIN_six_digit_uniform (1/2) (by norm_num) (by norm_num)).1

/-- C7 counterexample: over the at most 2^53 values Math.random() can take,
the random component of the QR token ranges over fewer than 2^80 distinct
strings — nowhere near 80 bits of entropy. -/
theorem randomComponent_under_80_bits_counterexample :
    ((Finset.range (2 ^ 53)).image randomComponent).card < 2 ^ 80 := by
  calc ((Finset.range (2 ^ 53)).image randomComponent).card
      ≤ (Finset.range (2 ^ 53)).card := Finset.card_image_le
    _ = 2 ^ 53 := Finset.card_range _
    _ < 2 ^ 80 := by norm_num

/-- C7 amended: generateQRToken does combine the millisecond timestamp with
a pseudo-random component, but that component is 13 base-36 characters
derived from a single 53-bit double, so it ranges over at most
2^53 < 2^80 distinct values (about 53 bits, and in any case at most
36^13, about 67 bits), not the at least 80 bits the spec asks for. -/
theorem generateQRToken_entropy_bound (nowMs k : Nat) :
    generateQRToken nowMs k = decimalRepr nowMs ++ [45] ++ randomComponent k ∧
    (randomComponent k).length = 13 ∧
    (∀ c ∈ randomComponent k, ∃ d, d < 36 ∧ c = toBase36Char d) ∧
    ((Finset.range (2 ^ 53)).image randomComponent).card ≤ 2 ^ 53 ∧
    (2 : ℕ) ^ 53 < 2 ^ 80 := by
  refine ⟨rfl, by simp [randomComponent], ?_, ?_, by norm_num⟩
  · intro c hc
    simp only [randomComponent, List.mem_map, List.mem_range] at hc
    obtain ⟨i, _, rfl⟩ := hc
    exact ⟨_, Nat.mod_lt _ (by norm_num), rfl⟩
  · calc ((Finset.range (2 ^ 53)).image randomComponent).card
        ≤ (Finset.range (2 ^ 53)).card := Finset.card_image_le
      _ = 2 ^ 53 := Finset.card_range _

/-- C7 witness: the random component always has exactly 13 characters. -/
theorem generateQRToken_entropy_bound_witness :
    (randomComponent 0).length = 13 :=
  (generateQRToken_entropy_bound 0 0).2.1

/-! QR payload encoding (utils/qrCode.ts).

JS strings are lists of UTF-16 code units.  `encodeSessionData` is
btoa(JSON.stringify(obj)) and may throw (here: return none) when the
stringified text contains a code unit above U+00FF; `decodeSessionData` is
JSON.parse(atob(e)) with every exception mapped to null (here: none of an
Option).  The JSON string escaping, base64 alphabet and the forgiving
base64 decode of atob are modelled after the platform routines the source
calls. -/

/-- Lowercase hex digit used by the JSON \u00XX escapes. -/
def hexChar (d : Nat) : Nat :=
  if d < 10 then 48 + d else 87 + d

/-- JSON.stringify escape of one code unit: the two-character escapes for
quote, backslash, backspace, tab, newline, form feed and carriage return,
the \u00XX form for the remaining control characters, and the unit itself
otherwise. -/
def escapeJsonChar (c : Nat) : List Nat :=
  if c = 34 then [92, 34]
  else if c = 92 then [92, 92]
  else if c = 8 then [92, 98]
  else if c = 9 then [92, 116]
  else if c = 10 then [92, 110]
  else if c = 12 then [92, 102]
  else if c = 13 then [92, 114]
  else if c < 32 then [92, 117, 48, 48, hexChar (c / 16), hexChar (c % 16)]
  else [c]

/-- JSON.stringify escape of a whole string body. -/
def escapeJson (s : List Nat) : List Nat :=
  s.flatMap escapeJsonChar

/-- A JSON string literal: body escaped and wrapped in quotes. -/
def quoteJson (s : List Nat) : List Nat :=
  34 :: (escapeJson s ++ [34])

/-- The code units of the literal key sessionId. -/
def sessionIdKey : List Nat := [115, 101, 115, 115, 105, 111, 110, 73, 100]

/-- The code units of the literal key qrToken. -/
def qrTokenKey : List Nat := [113, 114, 84, 111, 107, 101, 110]

/-- The code units of the literal key expiresAt. -/
def expiresAtKey : List Nat := [101, 120, 112, 105, 114, 101, 115, 65, 116]

/-- JSON.stringify of the object the source builds from the three fields,
in declaration order. -/
def stringifySessionData (sessionId qrToken expiresAt : List Nat) : List Nat :=
  [123] ++ quoteJson sessionIdKey ++ [58] ++ quoteJson sessionId ++ [44]
    ++ quoteJson qrTokenKey ++ [58] ++ quoteJson qrToken ++ [44]
    ++ quoteJson expiresAtKey ++ [58] ++ quoteJson expiresAt ++ [125]

/-- The base64 alphabet character of a 6-bit value. -/
def b64Char (v : Nat) : Nat :=
  if v < 26 then 65 + v
  else if v < 52 then 97 + (v - 26)
  else if v < 62 then 48 + (v - 52)
  else if v = 62 then 43
  else 47

/-- Base64 encoding of a byte list, with padding, as btoa emits it. -/
def b64encode : List Nat → List Nat
  | [] => []
  | [a] => [b64Char (a / 4), b64Char (a % 4 * 16), 61, 61]
  | [a, b] => [b64Char (a / 4), b64Char (a % 4 * 16 + b / 16),
               b64Char (b % 16 * 4), 61]
  | a :: b :: c :: rest =>
      b64Char (a / 4) :: b64Char (a % 4 * 16 + b / 16) ::
      b64Char (b % 16 * 4 + c / 64) :: b64Char (c % 64) :: b64encode rest

/-- btoa: rejects any code unit above U+00FF (the InvalidCharacterError),
otherwise base64-encodes the Latin-1 bytes. -/
def btoa (s : List Nat) : Option (List Nat) :=
  if s.all (fun c => c ≤ 255) then some (b64encode s) else none

/-- ASCII whitespace removed by the forgiving base64 decode. -/
def isB64Ws (c : Nat) : Bool :=
  c = 9 || c = 10 || c = 12 || c = 13 || c = 32

/-- Value of a base64 alphabet character, none outside the alphabet. -/
def b64Val (c : Nat) : Option Nat :=
  if 65 ≤ c ∧ c ≤ 90 then some (c - 65)
  else if 97 ≤ c ∧ c ≤ 122 then some (c - 97 + 26)
  else if 48 ≤ c ∧ c ≤ 57 then some (c - 48 + 52)
  else if c = 43 then some 62
  else if c = 47 then some 63
  else none

/-- Removal of one or two leading padding characters from a reversed
input, i.e. of trailing = signs. -/
def dropPadRev (l : List Nat) : List Nat :=
  match l with
  | [] => []
  | c :: rest =>
    if c = 61 then
      match rest with
      | [] => []
      | c2 :: rest2 => if c2 = 61 then rest2 else rest
    else l

/-- Chunked base64 decoding: groups of four characters yield three bytes,
a final group of three or two yields two bytes or one, a leftover single
character or any character outside the alphabet is a failure. -/
def b64chunks : List Nat → Option (List Nat)
  | [] => some []
  | [c1, c2] =>
    match b64Val c1, b64Val c2 with
    | some a, some b => some [a * 4 + b / 16]
    | _, _ => none
  | [c1, c2, c3] =>
    match b64Val c1, b64Val c2, b64Val c3 with
    | some a, some b, some c => some [a * 4 + b / 16, b % 16 * 16 + c / 4]
    | _, _, _ => none
  | c1 :: c2 :: c3 :: c4 :: rest =>
    match b64Val c1, b64Val c2, b64Val c3, b64Val c4, b64chunks rest with
    | some a, some b, some c, some d, some t =>
        some ((a * 4 + b / 16) :: (b % 16 * 16 + c / 4) :: (c % 4 * 64 + d) :: t)
    | _, _, _, _, _ => none
  | _ => none

/-- atob: the forgiving base64 decode — remove ASCII whitespace, strip up
to two trailing = signs when the length is a multiple of four, then decode
in chunks, failing on a leftover character or a non-alphabet character. -/
def atob (s : List Nat) : Option (List Nat) :=
  let t := s.filter (fun c => !isB64Ws c)
  let u := if t.length % 4 = 0 then (dropPadRev t.reverse).reverse else t
  b64chunks u

/-- encodeSessionData (utils/qrCode.ts): btoa of the stringified object;
none models the uncaught InvalidCharacterError of btoa. -/
def encodeSessionData (sessionId qrToken expiresAt : List Nat) :
    Option (List Nat) :=
  btoa (stringifySessionData sessionId qrToken expiresAt)

/-- JSON values as JSON.parse produces them.  Number literals are kept as
their source text: the claims never observe numeric values, only whether a
parse succeeds and the shape of the result. -/
inductive Json where
  | null
  | bool (b : Bool)
  | num (lit : List Nat)
  | str (s : List Nat)
  | arr (elems : List Json)
  | obj (members : List (List Nat × Json))

/-- JSON whitespace: space, tab, line feed, carriage return. -/
def skipWs : List Nat → List Nat
  | [] => []
  | c :: rest =>
    if c = 32 || c = 9 || c = 10 || c = 13 then skipWs rest else c :: rest

/-- Hexadecimal digit value, accepting both letter cases. -/
def hexVal (c : Nat) : Option Nat :=
  if 48 ≤ c ∧ c ≤ 57 then some (c - 48)
  else if 97 ≤ c ∧ c ≤ 102 then some (c - 97 + 10)
  else if 65 ≤ c ∧ c ≤ 70 then some (c - 65 + 10)
  else none

/-- The body of a JSON string after the opening quote: raw units above
U+001F other than quote and backslash, the short escapes, and \uXXXX;
returns the decoded body and the input after the closing quote. -/
def parseStringBody : List Nat → Option (List Nat × List Nat)
  | [] => none
  | c :: rest =>
    if c = 34 then some ([], rest)
    else if c = 92 then
      match rest with
      | [] => none
      | e :: rest2 =>
        if e = 34 ∨ e = 92 ∨ e = 47 then
          (parseStringBody rest2).map (fun p => (e :: p.1, p.2))
        else if e = 98 then
          (parseStringBody rest2).map (fun p => (8 :: p.1, p.2))
        else if e = 116 then
          (parseStringBody rest2).map (fun p => (9 :: p.1, p.2))
        else if e = 110 then
          (parseStringBody rest2).map (fun p => (10 :: p.1, p.2))
        else if e = 102 then
          (parseStringBody rest2).map (fun p => (12 :: p.1, p.2))
        else if e = 114 then
          (parseStringBody rest2).map (fun p => (13 :: p.1, p.2))
        else if e = 117 then
          match rest2 with
          | h1 :: h2 :: h3 :: h4 :: rest3 =>
            match hexVal h1, hexVal h2, hexVal h3, hexVal h4 with
            | some a, some b, some c2, some d =>
              (parseStringBody rest3).map
                (fun p => ((a * 4096 + b * 256 + c2 * 16 + d) :: p.1, p.2))
            | _, _, _, _ => none
          | _ => none
        else none
    else if c < 32 then none
    else (parseStringBody rest).map (fun p => (c :: p.1, p.2))

/-- Longest leading run of decimal digits. -/
def takeDigits : List Nat → List Nat × List Nat
  | [] => ([], [])
  | c :: rest =>
    if 48 ≤ c ∧ c ≤ 57 then
      let p := takeDigits rest
      (c :: p.1, p.2)
    else ([], c :: rest)

/-- The integer part of a JSON number: 0, or a nonzero digit followed by
digits. -/
def parseIntPart : List Nat → Option (List Nat × List Nat)
  | [] => none
  | c :: rest =>
    if c = 48 then some ([48], rest)
    else if 49 ≤ c ∧ c ≤ 57 then
      let p := takeDigits rest
      some (c :: p.1, p.2)
    else none

/-- The optional fraction part of a JSON number. -/
def parseFrac (l : List Nat) : Option (List Nat × List Nat) :=
  match l with
  | 46 :: rest =>
    let p := takeDigits rest
    if p.1 = [] then none else some (46 :: p.1, p.2)
  | _ => some ([], l)

/-- The optional exponent part of a JSON number. -/
def parseExp (l : List Nat) : Option (List Nat × List Nat) :=
  match l with
  | c :: rest =>
    if c = 101 ∨ c = 69 then
      let sr :=
        match rest with
        | 43 :: r => (([43] : List Nat), r)
        | 45 :: r => (([45] : List Nat), r)
        | _ => (([] : List Nat), rest)
      let p := takeDigits sr.2
      if p.1 = [] then none else some (c :: (sr.1 ++ p.1), p.2)
    else some ([], c :: rest)
  | [] => some ([], [])

/-- A JSON number literal: optional minus, integer part, optional fraction
and exponent; the literal text is returned unevaluated. -/
def parseNumber (l : List Nat) : Option (List Nat × List Nat) := do
  let sl :=
    match l with
    | 45 :: rest => (([45] : List Nat), rest)
    | _ => (([] : List Nat), l)
  let ip ← parseIntPart sl.2
  let fp ← parseFrac ip.2
  let ep ← parseExp fp.2
  pure (sl.1 ++ ip.1 ++ fp.1 ++ ep.1, ep.2)

mutual

/-- A JSON value, fuel-bounded recursive descent mirroring JSON.parse. -/
def parseValue : Nat → List Nat → Option (Json × List Nat)
  | 0, _ => none
  | fuel + 1, l =>
    match l with
    | [] => none
    | c :: rest =>
      if c = 34 then
        (parseStringBody rest).map (fun p => (Json.str p.1, p.2))
      else if c = 123 then
        match skipWs rest with
        | 125 :: r => some (Json.obj [], r)
        | l2 => (parseMembers fuel l2).map (fun p => (Json.obj p.1, p.2))
      else if c = 91 then
        match skipWs rest with
        | 93 :: r => some (Json.arr [], r)
        | l2 => (parseElems fuel l2).map (fun p => (Json.arr p.1, p.2))
      else if c = 110 then
        match rest with
        | 117 :: 108 :: 108 :: r => some (Json.null, r)
        | _ => none
      else if c = 116 then
        match rest with
        | 114 :: 117 :: 101 :: r => some (Json.bool true, r)
        | _ => none
      else if c = 102 then
        match rest with
        | 97 :: 108 :: 115 :: 101 :: r => some (Json.bool false, r)
        | _ => none
      else
        (parseNumber (c :: rest)).map (fun p => (Json.num p.1, p.2))

/-- One or more key-value members of a JSON object, starting at the
opening quote of the first key. -/
def parseMembers : Nat → List Nat → Option (List (List Nat × Json) × List Nat)
  | 0, _ => none
  | fuel + 1, l =>
    match l with
    | 34 :: rest =>
      match parseStringBody rest with
      | none => none
      | some (key, r1) =>
        match skipWs r1 with
        | 58 :: r3 =>
          match parseValue fuel (skipWs r3) with
          | none => none
          | some (v, r4) =>
            match skipWs r4 with
            | 44 :: r6 =>
              match parseMembers fuel (skipWs r6) with
              | none => none
              | some (ms, r7) => some ((key, v) :: ms, r7)
            | 125 :: r6 => some ([(key, v)], r6)
            | _ => none
        | _ => none
    | _ => none

/-- One or more elements of a JSON array. -/
def parseElems : Nat → List Nat → Option (List Json × List Nat)
  | 0, _ => none
  | fuel + 1, l =>
    match parseValue fuel l with
    | none => none
    | some (v, r1) =>
      match skipWs r1 with
      | 44 :: r3 =>
        match parseElems fuel (skipWs r3) with
        | none => none
        | some (vs, r4) => some (v :: vs, r4)
      | 93 :: r3 => some ([v], r3)
      | _ => none

end

/-- JSON.parse: a single value surrounded by whitespace. -/
def jsonParse (s : List Nat) : Option Json :=
  match parseValue (s.length + 1) (skipWs s) with
  | none => none
  | some (v, rest) => if skipWs rest = [] then some v else none

/-- decodeSessionData (utils/qrCode.ts): JSON.parse(atob(e)), with any
exception from either step caught and mapped to null; whatever JSON.parse
yields is returned unchecked. -/
def decodeSessionData (encodedData : List Nat) : Option Json :=
  match atob encodedData with
  | none => none
  | some decoded => jsonParse decoded

/-- The JSON value of the session payload object. -/
def sessionJson (sessionId qrToken expiresAt : List Nat) : Json :=
  Json.obj [(sessionIdKey, Json.str sessionId),
            (qrTokenKey, Json.str qrToken),
            (expiresAtKey, Json.str expiresAt)]

section Base64Lemmas

/-- Every base64 alphabet character is at least 43. -/
theorem b64Char_ge (v : Nat) : 43 ≤ b64Char v := by
  unfold b64Char
  split_ifs <;> omega

/-- No base64 alphabet character is the padding character 61. -/
theorem b64Char_ne_61 (v : Nat) : b64Char v ≠ 61 := by
  unfold b64Char
  split_ifs <;> omega

/-- Decoding inverts the alphabet on 6-bit values. -/
theorem b64Val_b64Char : ∀ v, v < 64 → b64Val (b64Char v) = some v := by
  decide

/-- Every unit of a base64 encoding is at least 43 (hence not whitespace). -/
theorem b64encode_mem_ge : ∀ (s : List Nat), ∀ c ∈ b64encode s, 43 ≤ c
  | [] => by
    intro c hc
    simp [b64encode] at hc
  | [a] => by
    intro c hc
    simp only [b64encode, List.mem_cons, List.not_mem_nil, or_false] at hc
    rcases hc with rfl | rfl | rfl | rfl
    · exact b64Char_ge _
    · exact b64Char_ge _
    · omega
    · omega
  | [a, b] => by
    intro c hc
    simp only [b64encode, List.mem_cons, List.not_mem_nil, or_false] at hc
    rcases hc with rfl | rfl | rfl | rfl
    · exact b64Char_ge _
    · exact b64Char_ge _
    · exact b64Char_ge _
    · omega
  | a :: b :: c0 :: rest => by
    intro c hc
    simp only [b64encode, List.mem_cons] at hc
    rcases hc with rfl | rfl | rfl | rfl | h
    · exact b64Char_ge _
    · exact b64Char_ge _
    · exact b64Char_ge _
    · exact b64Char_ge _
    · exact b64encode_mem_ge rest c h

/-- A base64 encoding always has length divisible by four. -/
theorem b64encode_length_mod4 : ∀ (s : List Nat), (b64encode s).length % 4 = 0
  | [] => rfl
  | [_] => by simp [b64encode]
  | [_, _] => by simp [b64encode]
  | _ :: _ :: _ :: rest => by
    have ih := b64encode_length_mod4 rest
    simp only [b64encode, List.length_cons]
    omega

/-- A nonempty input encodes to at least four characters. -/
theorem b64encode_length_ge (s : List Nat) (h : s ≠ []) :
    4 ≤ (b64encode s).length := by
  match s with
  | [] => exact absurd rfl h
  | [a] => simp [b64encode]
  | [a, b] => simp [b64encode]
  | a :: b :: c :: rest =>
    simp only [b64encode, List.length_cons]
    omega

/-- Pad stripping only inspects the first two characters. -/
theorem dropPadRev_append (u L : List Nat) (h : 2 ≤ u.length) :
    dropPadRev (u ++ L) = dropPadRev u ++ L := by
  match u with
  | [] => simp at h
  | [a] => simp at h
  | a :: b :: us =>
    by_cases h1 : a = 61
    · by_cases h2 : b = 61
      · simp [dropPadRev, h1, h2]
      · simp [dropPadRev, h1, h2]
    · simp [dropPadRev, h1]

/-- Base64 encoding without padding characters: the proof-side normal form
of the encoding after atob strips the trailing = signs. -/
def b64encodeNoPad : List Nat → List Nat
  | [] => []
  | [a] => [b64Char (a / 4), b64Char (a % 4 * 16)]
  | [a, b] => [b64Char (a / 4), b64Char (a % 4 * 16 + b / 16),
               b64Char (b % 16 * 4)]
  | a :: b :: c :: rest =>
      b64Char (a / 4) :: b64Char (a % 4 * 16 + b / 16) ::
      b64Char (b % 16 * 4 + c / 64) :: b64Char (c % 64) :: b64encodeNoPad rest

/-- Stripping the padding from a base64 encoding yields the pad-free
encoding. -/
theorem stripPad_b64encode :
    ∀ (s : List Nat),
      (dropPadRev (b64encode s).reverse).reverse = b64encodeNoPad s
  | [] => rfl
  | [a] => by
    simp [b64encode, b64encodeNoPad, dropPadRev]
  | [a, b] => by
    have h := b64Char_ne_61 (b % 16 * 4)
    simp [b64encode, b64encodeNoPad, dropPadRev, h]
  | a :: b :: c :: rest => by
    have ih := stripPad_b64encode rest
    cases rest with
    | nil =>
      have h := b64Char_ne_61 (c % 64)
      simp [b64encode, b64encodeNoPad, dropPadRev, h]
    | cons r0 rs =>
      have hlen : 2 ≤ (b64encode (r0 :: rs)).reverse.length := by
        rw [List.length_reverse]
        have := b64encode_length_ge (r0 :: rs) (by simp)
        omega
      have hrw : (b64encode (a :: b :: c :: r0 :: rs)).reverse
          = (b64encode (r0 :: rs)).reverse ++
            [b64Char (c % 64), b64Char (b % 16 * 4 + c / 64),
             b64Char (a % 4 * 16 + b / 16), b64Char (a / 4)] := by
        simp [b64encode]
      rw [hrw, dropPadRev_append _ _ hlen]
      simp [List.reverse_append, ih, b64encodeNoPad]

/-- Chunked decoding inverts the pad-free encoding of a byte list. -/
theorem b64chunks_noPad :
    ∀ (s : List Nat), (∀ x ∈ s, x ≤ 255) →
      b64chunks (b64encodeNoPad s) = some s
  | [], _ => rfl
  | [a], h => by
    have ha : a ≤ 255 := h a (by simp)
    have h1 := b64Val_b64Char (a / 4) (by omega)
    have h2 := b64Val_b64Char (a % 4 * 16) (by omega)
    simp [b64encodeNoPad, b64chunks, h1, h2]
    omega
  | [a, b], h => by
    have ha : a ≤ 255 := h a (by simp)
    have hb : b ≤ 255 := h b (by simp)
    have h1 := b64Val_b64Char (a / 4) (by omega)
    have h2 := b64Val_b64Char (a % 4 * 16 + b / 16) (by omega)
    have h3 := b64Val_b64Char (b % 16 * 4) (by omega)
    simp [b64encodeNoPad, b64chunks, h1, h2, h3]
    omega
  | a :: b :: c :: rest, h => by
    have ha : a ≤ 255 := h a (by simp)
    have hb : b ≤ 255 := h b (by simp)
    have hc : c ≤ 255 := h c (by simp)
    have ih := b64chunks_noPad rest (fun x hx => h x (by simp [hx]))
    have h1 := b64Val_b64Char (a / 4) (by omega)
    have h2 := b64Val_b64Char (a % 4 * 16 + b / 16) (by omega)
    have h3 := b64Val_b64Char (b % 16 * 4 + c / 64) (by omega)
    have h4 := b64Val_b64Char (c % 64) (by omega)
    simp [b64encodeNoPad, b64chunks, h1, h2, h3, h4, ih]
    omega

/-- atob inverts b64encode on byte lists: the btoa-atob round trip. -/
theorem atob_b64encode (s : List Nat) (h : ∀ x ∈ s, x ≤ 255) :
    atob (b64encode s) = some s := by
  have hfil : (b64encode s).filter (fun c => !isB64Ws c) = b64encode s := by
    apply List.filter_eq_self.mpr
    intro c hc
    have h43 := b64encode_mem_ge s c hc
    simp [isB64Ws]
    omega
  simp only [atob, hfil]
  rw [if_pos (b64encode_length_mod4 s), stripPad_b64encode]
  exact b64chunks_noPad s h

end Base64Lemmas

section JsonLemmas

/-- Hex decoding inverts the lowercase hex digit rendering. -/
theorem hexVal_hexChar : ∀ d, d < 16 → hexVal (hexChar d) = some d := by
  decide

/-- Parsing a string body inverts the JSON escape: reading the escaped body
followed by a closing quote recovers the original units and the tail. -/
theorem parseStringBody_escape (s rest : List Nat) :
    parseStringBody (escapeJson s ++ 34 :: rest) = some (s, rest) := by
  induction s with
  | nil =>
    have h0 : escapeJson [] = [] := rfl
    rw [h0, List.nil_append, parseStringBody.eq_def]
    simp
  | cons c cs ih =>
    have hesc : escapeJson (c :: cs) = escapeJsonChar c ++ escapeJson cs := by
      simp [escapeJson]
    rw [hesc, List.append_assoc]
    by_cases h1 : c = 34
    · subst h1
      rw [show escapeJsonChar 34 = [92, 34] from rfl]
      simp only [List.cons_append, List.nil_append]
      rw [parseStringBody.eq_def]
      simp [ih]
    · by_cases h2 : c = 92
      · subst h2
        rw [show escapeJsonChar 92 = [92, 92] from rfl]
        simp only [List.cons_append, List.nil_append]
        rw [parseStringBody.eq_def]
        simp [ih]
      · by_cases h3 : c = 8
        · subst h3
          rw [show escapeJsonChar 8 = [92, 98] from rfl]
          simp only [List.cons_append, List.nil_append]
          rw [parseStringBody.eq_def]
          simp [ih]
        · by_cases h4 : c = 9
          · subst h4
            rw [show escapeJsonChar 9 = [92, 116] from rfl]
            simp only [List.cons_append, List.nil_append]
            rw [parseStringBody.eq_def]
            simp [ih]
          · by_cases h5 : c = 10
            · subst h5
              rw [show escapeJsonChar 10 = [92, 110] from rfl]
              simp only [List.cons_append, List.nil_append]
              rw [parseStringBody.eq_def]
              simp [ih]
            · by_cases h6 : c = 12
              · subst h6
                rw [show escapeJsonChar 12 = [92, 102] from rfl]
                simp only [List.cons_append, List.nil_append]
                rw [parseStringBody.eq_def]
                simp [ih]
              · by_cases h7 : c = 13
                · subst h7
                  rw [show escapeJsonChar 13 = [92, 114] from rfl]
                  simp only [List.cons_append, List.nil_append]
                  rw [parseStringBody.eq_def]
                  simp [ih]
                · by_cases h8 : c < 32
                  · have ha := hexVal_hexChar (c / 16) (by omega)
                    have hb := hexVal_hexChar (c % 16) (by omega)
                    have hc : c / 16 * 16 + c % 16 = c := by omega
                    have hej : escapeJsonChar c
                        = [92, 117, 48, 48, hexChar (c / 16), hexChar (c % 16)] := by
                      unfold escapeJsonChar
                      rw [if_neg h1, if_neg h2, if_neg h3, if_neg h4, if_neg h5,
                          if_neg h6, if_neg h7, if_pos h8]
                    rw [hej]
                    simp only [List.cons_append, List.nil_append]
                    rw [parseStringBody.eq_def]
                    simp [ha, hb, hc, ih, show hexVal 48 = some 0 from rfl]
                  · have hej : escapeJsonChar c = [c] := by
                      unfold escapeJsonChar
                      rw [if_neg h1, if_neg h2, if_neg h3, if_neg h4, if_neg h5,
                          if_neg h6, if_neg h7, if_neg h8]
                    rw [hej]
                    simp only [List.cons_append, List.nil_append]
                    rw [parseStringBody.eq_def]
                    simp [h1, h2, h8, ih]

/-- The stringified session object in parse-ready cons form. -/
theorem stringify_shape (sid tok exp : List Nat) :
    stringifySessionData sid tok exp
      = 123 :: 34 :: (escapeJson sessionIdKey ++ 34 :: 58 :: 34 ::
          (escapeJson sid ++ 34 :: 44 :: 34 :: (escapeJson qrTokenKey ++
            34 :: 58 :: 34 :: (escapeJson tok ++ 34 :: 44 :: 34 ::
              (escapeJson expiresAtKey ++ 34 :: 58 :: 34 ::
                (escapeJson exp ++ 34 :: 125 :: ([] : List Nat))))))) := by
  simp [stringifySessionData, quoteJson]

/-- Parsing the stringified session object yields exactly the session
object value, consuming the whole input. -/
theorem parseValue_stringify (n : Nat) (sid tok exp : List Nat) :
    parseValue (n + 5) (stringifySessionData sid tok exp)
      = some (sessionJson sid tok exp, []) := by
  rw [stringify_shape]
  simp [parseValue, parseMembers, skipWs, parseStringBody_escape, sessionJson]

/-- jsonParse inverts the session-object stringification. -/
theorem jsonParse_stringify (sid tok exp : List Nat) :
    jsonParse (stringifySessionData sid tok exp)
      = some (sessionJson sid tok exp) := by
  unfold jsonParse
  obtain ⟨m, hm⟩ : ∃ m, (stringifySessionData sid tok exp).length + 1 = m + 5 := by
    refine ⟨(stringifySessionData sid tok exp).length - 4, ?_⟩
    have : 4 ≤ (stringifySessionData sid tok exp).length := by
      rw [stringify_shape]
      simp
      omega
    omega
  have hskip : skipWs (stringifySessionData sid tok exp)
      = stringifySessionData sid tok exp := by
    rw [stringify_shape]
    rw [skipWs.eq_def]
    simp
  rw [hskip, hm, parseValue_stringify]
  simp [skipWs]

end JsonLemmas

section Latin1Lemmas

/-- Hex digits stay within Latin-1. -/
theorem hexChar_le (d : Nat) (h : d ≤ 15) : hexChar d ≤ 255 := by
  unfold hexChar
  split_ifs <;> omega

/-- Escaping a Latin-1 unit produces only Latin-1 units. -/
theorem escapeJsonChar_latin1 {c : Nat} (hc : c ≤ 255) :
    ∀ x ∈ escapeJsonChar c, x ≤ 255 := by
  intro x hx
  unfold escapeJsonChar at hx
  split_ifs at hx with h1 h2 h3 h4 h5 h6 h7 h8 <;>
    simp only [List.mem_cons, List.not_mem_nil, or_false] at hx
  · rcases hx with rfl | rfl <;> omega
  · rcases hx with rfl | rfl <;> omega
  · rcases hx with rfl | rfl <;> omega
  · rcases hx with rfl | rfl <;> omega
  · rcases hx with rfl | rfl <;> omega
  · rcases hx with rfl | rfl <;> omega
  · rcases hx with rfl | rfl <;> omega
  · rcases hx with rfl | rfl | rfl | rfl | rfl | rfl
    · omega
    · omega
    · omega
    · omega
    · exact hexChar_le _ (by omega)
    · exact hexChar_le _ (by omega)
  · omega

/-- Escaping a Latin-1 string produces only Latin-1 units. -/
theorem escapeJson_latin1 {s : List Nat} (h : ∀ c ∈ s, c ≤ 255) :
    ∀ x ∈ escapeJson s, x ≤ 255 := by
  intro x hx
  simp only [escapeJson, List.mem_flatMap] at hx
  obtain ⟨c, hcs, hxc⟩ := hx
  exact escapeJsonChar_latin1 (h c hcs) x hxc

/-- A quoted Latin-1 string literal is Latin-1. -/
theorem quoteJson_latin1 {s : List Nat} (h : ∀ c ∈ s, c ≤ 255) :
    ∀ x ∈ quoteJson s, x ≤ 255 := by
  intro x hx
  simp only [quoteJson, List.mem_cons, List.mem_append,
    List.not_mem_nil, or_false] at hx
  rcases hx with rfl | hx | rfl
  · omega
  · exact escapeJson_latin1 h x hx
  · omega

/-- The stringified object of Latin-1 fields is Latin-1. -/
theorem stringify_latin1 {sid tok exp : List Nat}
    (h1 : ∀ c ∈ sid, c ≤ 255) (h2 : ∀ c ∈ tok, c ≤ 255)
    (h3 : ∀ c ∈ exp, c ≤ 255) :
    ∀ x ∈ stringifySessionData sid tok exp, x ≤ 255 := by
  intro x hx
  simp only [stringifySessionData, List.append_assoc, List.mem_append,
    List.mem_cons, List.mem_singleton, List.not_mem_nil, or_false] at hx
  rcases hx with rfl | hx | rfl | hx | rfl | hx | rfl | hx | rfl | hx | rfl | hx | rfl
  · omega
  · exact quoteJson_latin1 (by decide) x hx
  · omega
  · exact quoteJson_latin1 h1 x hx
  · omega
  · exact quoteJson_latin1 (by decide) x hx
  · omega
  · exact quoteJson_latin1 h2 x hx
  · omega
  · exact quoteJson_latin1 (by decide) x hx
  · omega
  · exact quoteJson_latin1 h3 x hx
  · omega

end Latin1Lemmas

/-- C5 counterexample: the malformed input e30= (base64 of the two
characters braces-only) is not an encoding of any session payload, yet
decodeSessionData returns the parsed empty object rather than the invalid
result null. -/
theorem decode_malformed_not_null_counterexample :
    decodeSessionData [101, 51, 48, 61] = some (Json.obj []) ∧
    (∀ sid tok exp : List Nat,
      encodeSessionData sid tok exp ≠ some [101, 51, 48, 61]) := by
  constructor
  · rfl
  · intro sid tok exp he
    unfold encodeSessionData btoa at he
    split at he
    · rename_i hall
      injection he with he2
      have hble : ∀ x ∈ stringifySessionData sid tok exp, x ≤ 255 := by
        intro x hx
        have := List.all_eq_true.mp hall x hx
        simpa using this
      have h1 := atob_b64encode _ hble
      rw [he2] at h1
      have h2 : atob [101, 51, 48, 61] = some [123, 125] := rfl
      rw [h2] at h1
      injection h1 with h3
      have hsh := stringify_shape sid tok exp
      rw [← h3] at hsh
      simp at hsh
    · cases he

/-- C5 amended: for Latin-1 inputs (the only ones encodeSessionData can
process, see C10) decoding inverts encoding, recovering exactly the object
with the three fields; decodeSessionData itself never throws — it is total,
returning null exactly when base64 decoding or JSON parsing fails — but on
well-formed base64 of valid JSON that is not a session payload it returns
that JSON value rather than null. -/
theorem decode_encode_roundtrip (sid tok exp : List Nat)
    (h1 : ∀ c ∈ sid, c ≤ 255) (h2 : ∀ c ∈ tok, c ≤ 255)
    (h3 : ∀ c ∈ exp, c ≤ 255) :
    (∃ e, encodeSessionData sid tok exp = some e ∧
      decodeSessionData e = some (sessionJson sid tok exp)) ∧
    (∀ e, decodeSessionData e = none ↔
      atob e = none ∨ ∃ d, atob e = some d ∧ jsonParse d = none) := by
  constructor
  · have hball : ∀ x ∈ stringifySessionData sid tok exp, x ≤ 255 :=
      stringify_latin1 h1 h2 h3
    have hall : (stringifySessionData sid tok exp).all
        (fun c => c ≤ 255) = true :=
      List.all_eq_true.mpr (fun x hx => by simpa using hball x hx)
    refine ⟨b64encode (stringifySessionData sid tok exp), ?_, ?_⟩
    · unfold encodeSessionData btoa
      rw [if_pos hall]
    · unfold decodeSessionData
      rw [atob_b64encode _ hball]
      exact jsonParse_stringify sid tok exp
  · intro e
    cases h : atob e with
    | none => simp [decodeSessionData, h]
    | some d => simp [decodeSessionData, h]

/-- C5 witness: the round trip at the concrete payload ABC. -/
theorem decode_encode_roundtrip_witness :
    ∃ e, encodeSessionData [65] [66] [67] = some e ∧
      decodeSessionData e = some (sessionJson [65] [66] [67]) :=
  (decode_encode_roundtrip [65] [66] [67]
    (by decide) (by decide) (by decide)).1

/-- C10: encodeSessionData is not total — any field containing a code unit
above U+00FF makes btoa throw (none), concretely so for the unit 256, and
encoding succeeds exactly on Latin-1 fields, which is why the round-trip
guarantee is restricted to them. -/
theorem encode_latin1_boundary :
    encodeSessionData [256] [] [] = none ∧
    (∀ (sid tok exp : List Nat) (c : Nat), 255 < c →
      c ∈ sid ∨ c ∈ tok ∨ c ∈ exp →
      encodeSessionData sid tok exp = none) ∧
    (∀ sid tok exp : List Nat, (∀ c ∈ sid, c ≤ 255) →
      (∀ c ∈ tok, c ≤ 255) → (∀ c ∈ exp, c ≤ 255) →
      (encodeSessionData sid tok exp).isSome = true) := by
  refine ⟨rfl, ?_, ?_⟩
  · intro sid tok exp c hc hmem
    have hcesc : escapeJsonChar c = [c] := by
      unfold escapeJsonChar
      split_ifs <;> first | rfl | omega
    have hstr : c ∈ stringifySessionData sid tok exp := by
      rcases hmem with h | h | h
      · have hin : c ∈ escapeJson sid :=
          List.mem_flatMap.mpr ⟨c, h, by rw [hcesc]; simp⟩
        simp [stringifySessionData, quoteJson, hin]
      · have hin : c ∈ escapeJson tok :=
          List.mem_flatMap.mpr ⟨c, h, by rw [hcesc]; simp⟩
        simp [stringifySessionData, quoteJson, hin]
      · have hin : c ∈ escapeJson exp :=
          List.mem_flatMap.mpr ⟨c, h, by rw [hcesc]; simp⟩
        simp [stringifySessionData, quoteJson, hin]
    have hnall : ¬ ((stringifySessionData sid tok exp).all
        (fun c => c ≤ 255) = true) := by
      intro hall
      have := List.all_eq_true.mp hall c hstr
      simp at this
      omega
    unfold encodeSessionData btoa
    rw [if_neg hnall]
  · intro sid tok exp h1 h2 h3
    have hball := stringify_latin1 h1 h2 h3
    have hall : (stringifySessionData sid tok exp).all
        (fun c => c ≤ 255) = true :=
      List.all_eq_true.mpr (fun x hx => by simpa using hball x hx)
    unfold encodeSessionData btoa
    rw [if_pos hall]
    rfl

/-- C10 witness: encoding succeeds on a concrete Latin-1 payload. -/
theorem encode_latin1_boundary_witness :
    (encodeSessionData [65] [66] [67]).isSome = true :=
  encode_latin1_boundary.2.2 [65] [66] [67]
    (by decide) (by decide) (by decide)

end Attendance
